import Mathlib

/-!
Verification development for the code-search engine in
`src/agents/code_explorer.py` (class `CodeExplorer`).

The engine is shallowly embedded: every Python function that the claims
touch is translated into an executable Lean definition over `String` and
`List`.  Python `re` searches are modelled by a small backtracking pattern
engine (`RE` below) covering exactly the constructs the source uses:
literals, character classes, `+` and `*` over a character class,
concatenation and alternation, with greedy longest-first backtracking and
left-first alternation, which coincides with CPython semantics for every
pattern appearing in the source.  All inputs in this development are ASCII,
so the ASCII readings of `\w`, `\s` and `str.lower` used here agree with
CPython.  Python integers are modelled by `Int`, `//` by `Int.fdiv`.

The engine state after construction is modelled by the loaded corpus
(an association list path -> file text, in insertion order, mirroring the
Python dict) together with the detected project type (the flag
`isAngular`; the `react`, `vue` and `unknown` types all behave identically
inside `search_code`, since its framework-specific branch runs only for
`angular`).  `search_code` mutates nothing, so it is a pure function of
that state and the query.
-/

/-! ## Basic character and string utilities (ASCII models of Python builtins) -/

def squote : Char := Char.ofNat 39

def dquote : Char := Char.ofNat 34

def lbrace : Char := Char.ofNat 123

def rbrace : Char := Char.ofNat 125

def backtickChar : Char := Char.ofNat 96

/-- ASCII model of the regex class `\w` = `[a-zA-Z0-9_]`. -/
def isPyWord (c : Char) : Bool :=
  ('a' ≤ c && c ≤ 'z') || ('A' ≤ c && c ≤ 'Z') || ('0' ≤ c && c ≤ '9') || c = '_'

/-- ASCII model of the regex class `\s` and of the default `str.strip` set. -/
def isPySpace (c : Char) : Bool :=
  c = ' ' || c = '\t' || c = '\n' || c = '\x0d' || c = '\x0c' || c = '\x0b'

def isLowerAZ (c : Char) : Bool := 'a' ≤ c && c ≤ 'z'

def isUpperAZ (c : Char) : Bool := 'A' ≤ c && c ≤ 'Z'

/-- Model of `str.lower` (ASCII). -/
def lowerStr (s : String) : String := String.mk (s.toList.map Char.toLower)

/-- Model of Python `str.split(sep)` for a one-character separator. -/
def pySplitAux (sep : Char) : List Char → List Char → List String
  | [], acc => [String.mk acc.reverse]
  | c :: cs, acc =>
    if c = sep then String.mk acc.reverse :: pySplitAux sep cs []
    else pySplitAux sep cs (c :: acc)

def pySplitOn (sep : Char) (s : String) : List String := pySplitAux sep s.toList []

/-- The line list of a file text, Python `content.split(chr(10))`. -/
def pyLines (content : String) : List String := pySplitOn '\n' content

/-- Model of Python `str.strip()` with no argument. -/
def pyStrip (s : String) : String :=
  String.mk (((s.toList.dropWhile isPySpace).reverse.dropWhile isPySpace).reverse)

/-- Substring test on character lists; `subOfChars n h` is Python `n in h`. -/
def subOfChars (needle : List Char) : List Char → Bool
  | [] => needle.isEmpty
  | c :: t => needle.isPrefixOf (c :: t) || subOfChars needle t

/-- Model of the Python substring operator `needle in hay`. -/
def substrOf (needle hay : String) : Bool := subOfChars needle.toList hay.toList

/-- Model of `str.startswith` for one candidate. -/
def pyStarts (pre s : String) : Bool := pre.toList.isPrefixOf s.toList

/-- Model of `str.endswith` for one candidate. -/
def pyEnds (suf s : String) : Bool := suf.toList.reverse.isPrefixOf s.toList.reverse

/-- Model of `os.path.basename` on POSIX: the part after the last slash. -/
def basename (path : String) : String := (pySplitOn '/' path).getLastD ""

/-- Maximal runs of `\w` characters, i.e. `re.findall` of a word pattern;
`wordRuns` of a text lists each token that a word-boundary-delimited
keyword regex can match. -/
def wordRunsAux : List Char → List Char → List String
  | [], acc => if acc.isEmpty then [] else [String.mk acc.reverse]
  | c :: cs, acc =>
    if isPyWord c then wordRunsAux cs (c :: acc)
    else if acc.isEmpty then wordRunsAux cs []
    else String.mk acc.reverse :: wordRunsAux cs []

def wordRuns (s : String) : List String := wordRunsAux s.toList []

/-- Order-fixed model of Python `list(set(..))` dedup: keeps first occurrences.
Iteration order of a CPython set is arbitrary but fixed within a process;
no claim observes the order, only the underlying set. -/
def dedupAux (seen : List String) : List String → List String
  | [] => []
  | x :: xs => if seen.contains x then dedupAux seen xs else x :: dedupAux (x :: seen) xs

def dedupFirst (l : List String) : List String := dedupAux [] l

/-- Python `chr(10).join(lines)`. -/
def joinNL : List String → String
  | [] => ""
  | [s] => s
  | s :: rest => s ++ "\n" ++ joinNL rest

/-! ## A small pattern engine modelling the `re` searches used by the source

Constructs: string literal, single character class, greedy `+` and `*` over a
character class, concatenation, alternation.  `remainders r cs` lists the
possible suffixes left after matching `r` at the head of `cs`, in CPython
backtracking order: greedy quantifiers longest first, alternation left first.
The head of the list is therefore the match CPython commits to. -/

inductive RE where
  | str : String → RE
  | cls : (Char → Bool) → RE
  | plus : (Char → Bool) → RE
  | star : (Char → Bool) → RE
  | seq : RE → RE → RE
  | alt : RE → RE → RE

def remainders : RE → List Char → List (List Char)
  | .str s, cs => if s.toList.isPrefixOf cs then [cs.drop s.toList.length] else []
  | .cls p, cs =>
    match cs with
    | c :: t => if p c then [t] else []
    | [] => []
  | .plus p, cs =>
    let n := (cs.takeWhile p).length
    (List.range n).map (fun j => cs.drop (n - j))
  | .star p, cs =>
    let n := (cs.takeWhile p).length
    (List.range (n + 1)).map (fun j => cs.drop (n - j))
  | .seq a b, cs => (remainders a cs).flatMap (remainders b)
  | .alt a b, cs => remainders a cs ++ remainders b cs

/-- Does `r` match starting at some position of the text?  Model of
`bool(re.search(r, text))`. -/
def searchChars (r : RE) : List Char → Bool
  | [] => !(remainders r []).isEmpty
  | c :: cs => !(remainders r (c :: cs)).isEmpty || searchChars r cs

def reSearch (r : RE) (s : String) : Bool := searchChars r s.toList

/-- Model of `re.finditer`: scan left to right, non-overlapping matches,
empty matches advance by one character; yields (matched text, start offset).
The fuel argument is always called with more fuel than characters, so it
never runs out. -/
def findAllAux (r : RE) : Nat → Nat → List Char → List (String × Nat)
  | 0, _, _ => []
  | fuel + 1, pos, cs =>
    match (remainders r cs).head? with
    | some rest =>
      let len := cs.length - rest.length
      if len = 0 then
        (String.mk [], pos) ::
          (match cs with
           | [] => []
           | _ :: t => findAllAux r fuel (pos + 1) t)
      else (String.mk (cs.take len), pos) :: findAllAux r fuel (pos + len) rest
    | none =>
      match cs with
      | [] => []
      | _ :: t => findAllAux r fuel (pos + 1) t

def reFindAll (r : RE) (s : String) : List (String × Nat) :=
  findAllAux r (s.length + 1) 0 s.toList

def reW : RE := .plus isPyWord

def reWS : RE := .plus isPySpace

def reWSstar : RE := .star isPySpace

def reSeq (l : List RE) : RE := l.foldr .seq (.str "")

def reFail : RE := .plus (fun _ => false)

def reAlts (l : List RE) : RE := l.foldr .alt reFail

/-! ## Term extraction (`_get_stop_words`, `_extract_technical_terms`) -/

/-- Translation of `CodeExplorer._get_stop_words` (verbatim listing, the
source set literal contains a few repeats that a set collapses). -/
def _get_stop_words : List String := [
  "the", "be", "to", "of", "and", "a", "in", "that", "have", "i",
  "it", "for", "not", "on", "with", "he", "as", "you", "do", "at",
  "this", "but", "his", "by", "from", "they", "we", "say", "her",
  "she", "or", "an", "will", "my", "one", "all", "would", "there",
  "their", "what", "so", "up", "out", "if", "about", "who", "get",
  "which", "go", "me", "when", "make", "can", "like", "time", "no",
  "just", "him", "know", "take", "people", "into", "year", "your",
  "good", "some", "could", "them", "see", "other", "than", "then",
  "now", "look", "only", "come", "its", "over", "think", "also",
  "back", "after", "use", "two", "how", "our", "work", "first",
  "well", "way", "even", "new", "want", "because", "any", "these",
  "give", "day", "most", "us", "is", "are", "was", "were", "been",
  "has", "had", "where", "why", "who", "which", "what", "explain",
  "tell", "show", "find", "help", "need", "using", "used", "done"]

/-- The eleven code-shape regexes of `_extract_technical_terms`, in source
listing order (the source stores them in a set; iteration order of that set
is arbitrary, and only the resulting term set is observable). -/
def code_patterns : List RE := [
  reSeq [reW, .str "()"],
  reSeq [reW, .str ".", reW],
  reSeq [.cls isUpperAZ, reW],
  reSeq [reW, .str "_", reW],
  reSeq [.plus isLowerAZ, .cls isUpperAZ, .star isPyWord],
  reSeq [.str "<", reW, .str ">"],
  reSeq [reW, .str "[", reW, .str "]"],
  reSeq [.str "@", reW],
  reSeq [.str "$", reW],
  reSeq [.str "#", reW],
  reSeq [.str "\x60", .plus (fun c => c ≠ backtickChar), .str "\x60"]]

/-- Translation of `CodeExplorer._extract_technical_terms`. -/
def _extract_technical_terms (query : String) : List String :=
  let terms := code_patterns.flatMap (fun r => (reFindAll r query).map Prod.fst)
  let words := wordRuns query
  dedupFirst (terms ++ words)

/-- The normalized search-term set computed at the top of `search_code`:
terms lowercased, length at least 3, stop words removed. -/
def searchTermsOf (query : String) : List String :=
  dedupFirst ((_extract_technical_terms query).filterMap (fun t =>
    if t.length > 2 && !(_get_stop_words.contains (lowerStr t)) then some (lowerStr t)
    else none))

/-! ## Structural analyzer (`_analyze_patterns`, `_analyze_complexity`,
`_analyze_dependencies`, `_analyze_data_flow`) -/

/-- Translation of the `pattern_definitions` dict of `_analyze_patterns`. -/
def pattern_definitions : List (String × RE) := [
  ("singleton", reSeq [.str "private", reWS, .str "static", reWS, reW, reWS, .str "instance"]),
  ("factory", .alt (reSeq [.str "create", reW]) (.str "factory")),
  ("observer", reAlts [.str "subscribe", .str "observer", .str "addEventListener"]),
  ("dependency_injection",
    reSeq [.str "constructor", reWSstar, .str "(", .plus (fun c => c ≠ ')'), .str ")"]),
  ("decorator", reSeq [.str "@", reW]),
  ("async_pattern", reAlts [.str "async", .str "await", .str "Promise", .str "Observable"])]

/-- Translation of `CodeExplorer._analyze_patterns`: a pattern is present if
its regex matches anywhere; every match start offset is recorded. -/
def _analyze_patterns (content : String) : List (String × List Nat) :=
  pattern_definitions.filterMap (fun nr =>
    if reSearch nr.2 content then some (nr.1, (reFindAll nr.2 content).map Prod.snd)
    else none)

/-- The record built by `_analyze_complexity`. -/
structure ComplexityAnalysis where
  cyclomatic : Int
  cognitive : Int
  score : Int
deriving DecidableEq

/-- The eight control-flow keywords counted by `_analyze_complexity`. -/
def controlKeywords : List String :=
  ["if", "else", "for", "while", "do", "switch", "case", "catch"]

/-- Count of `re.findall` of the word-bounded keyword alternation: every
match is exactly a maximal word run equal to one of the keywords. -/
def controlStructureCount (content : String) : Nat :=
  ((wordRuns content).filter (fun w => controlKeywords.contains w)).length

/-- One step of the nesting loop of `_analyze_complexity`: on each line,
increment the running depth if the line contains an opening bracket, brace
or parenthesis (updating the maximum), then decrement it if the line
contains a closing one.  State is (depth, maximum depth). -/
def nestingStep (st : Int × Int) (line : String) : Int × Int :=
  let hasOpen := line.toList.any (fun c => c = lbrace || c = '(' || c = '[')
  let hasClose := line.toList.any (fun c => c = rbrace || c = ')' || c = ']')
  let d1 := if hasOpen then st.1 + 1 else st.1
  let m1 := if hasOpen then max st.2 d1 else st.2
  let d2 := if hasClose then d1 - 1 else d1
  (d2, m1)

/-- The maximum running nesting depth retained by the loop (`max_depth`). -/
def maxNestingDepth (content : String) : Int :=
  ((pyLines content).foldl nestingStep (0, 0)).2

/-- Translation of `CodeExplorer._analyze_complexity`. -/
def _analyze_complexity (content : String) : ComplexityAnalysis :=
  let control : Int := controlStructureCount content
  let maxd := maxNestingDepth content
  { cyclomatic := control + 1,
    cognitive := control + maxd,
    score := Int.fdiv ((control + 1) + (control + maxd)) 2 }

/-- One import edge produced by `_analyze_dependencies`. -/
structure Dependency where
  type : String
  source : String
  imports : List String
deriving DecidableEq

/-- Literal-prefix step for the dependency scanner. -/
def takeLit (s : String) (cs : List Char) : Option (List Char) :=
  if s.toList.isPrefixOf cs then some (cs.drop s.toList.length) else none

/-- Greedy `C+` step; returns the run and the rest.  For every use below the
following pattern element cannot match a character of the class, so the
greedy commit agrees with CPython backtracking. -/
def take1Plus (p : Char → Bool) (cs : List Char) : Option (List Char × List Char) :=
  let run := cs.takeWhile p
  if run.isEmpty then none else some (run, cs.drop run.length)

/-- A single or double quote, the class `[squote dquote]` of the source regex. -/
def takeQuote (cs : List Char) : Option (List Char) :=
  match cs with
  | c :: t => if c = squote || c = dquote then some t else none
  | [] => none

def notQuote (c : Char) : Bool := c ≠ squote && c ≠ dquote

/-- First alternation branch of the `_analyze_dependencies` regex:
destructured import, `import ... from ...` with braces around the names. -/
def depBranch1 (cs : List Char) : Option (Dependency × List Char) := do
  let r1 ← takeLit "import" cs
  let (_, r2) ← take1Plus isPySpace r1
  let r3 ← takeLit "\x7b" r2
  let (g1, r4) ← take1Plus (fun c => c ≠ rbrace) r3
  let r5 ← takeLit "\x7d" r4
  let (_, r6) ← take1Plus isPySpace r5
  let r7 ← takeLit "from" r6
  let (_, r8) ← take1Plus isPySpace r7
  let r9 ← takeQuote r8
  let (g2, r10) ← take1Plus notQuote r9
  let r11 ← takeQuote r10
  some ({ type := "import", source := String.mk g2,
          imports := (pySplitOn ',' (String.mk g1)).map pyStrip }, r11)

/-- Second branch: default import, `import name from source`. -/
def depBranch2 (cs : List Char) : Option (Dependency × List Char) := do
  let r1 ← takeLit "import" cs
  let (_, r2) ← take1Plus isPySpace r1
  let (g3, r3) ← take1Plus isPyWord r2
  let (_, r4) ← take1Plus isPySpace r3
  let r5 ← takeLit "from" r4
  let (_, r6) ← take1Plus isPySpace r5
  let r7 ← takeQuote r6
  let (g4, r8) ← take1Plus notQuote r7
  let r9 ← takeQuote r8
  some ({ type := "import", source := String.mk g4,
          imports := [String.mk g3] }, r9)

/-- Third branch: `require(source)` with a quoted source. -/
def depBranch3 (cs : List Char) : Option (Dependency × List Char) := do
  let r1 ← takeLit "require(" cs
  let r2 ← takeQuote r1
  let (g5, r3) ← take1Plus notQuote r2
  let r4 ← takeQuote r3
  let r5 ← takeLit ")" r4
  some ({ type := "import", source := String.mk g5, imports := ["*"] }, r5)

/-- The three-branch alternation, tried left to right as CPython does. -/
def depAt (cs : List Char) : Option (Dependency × List Char) :=
  depBranch1 cs <|> depBranch2 cs <|> depBranch3 cs

/-- `re.finditer` scan for the dependency regex; every branch consumes at
least one character, so the fuel never runs out. -/
def depScan : Nat → List Char → List Dependency
  | 0, _ => []
  | fuel + 1, cs =>
    match depAt cs with
    | some (d, rest) => d :: depScan fuel rest
    | none =>
      match cs with
      | [] => []
      | _ :: t => depScan fuel t

/-- Translation of `CodeExplorer._analyze_dependencies`. -/
def _analyze_dependencies (content : String) : List Dependency :=
  depScan (content.length + 1) content.toList

/-- One hint produced by `_analyze_data_flow`; `varName` models the
`variable` entry (captured only for the `class_property` kind). -/
structure DataFlow where
  type : String
  location : Nat
  varName : Option String
deriving DecidableEq

/-- Translation of the `state_patterns` list of `_analyze_data_flow`. -/
def state_patterns : List (RE × String) := [
  (reSeq [.str "this.", reW, reWSstar, .str "="], "class_property"),
  (reSeq [.str "useState(", .star (fun c => c ≠ ')'), .str ")"], "react_state"),
  (reSeq [.str "new", reWS, .str "Subject(", .star (fun c => c ≠ ')'), .str ")"], "rxjs_subject"),
  (reSeq [.str "@Input(", .star (fun c => c ≠ ')'), .str ")"], "angular_input"),
  (reSeq [.str "@Output(", .star (fun c => c ≠ ')'), .str ")"], "angular_output")]

/-- The `(chr(92)w+)` capture group after `this.` in a `class_property`
match: the maximal word run following the five-character prefix. -/
def classPropVar (matched : String) : Option String :=
  some (String.mk ((matched.toList.drop 5).takeWhile isPyWord))

/-- Translation of `CodeExplorer._analyze_data_flow`. -/
def _analyze_data_flow (content : String) : List DataFlow :=
  state_patterns.flatMap (fun pr =>
    (reFindAll pr.1 content).map (fun mp =>
      { type := pr.2, location := mp.2,
        varName := if pr.2 = "class_property" then classPropVar mp.1 else none }))

/-! ## Ignore filter (`_load_gitignore` defaults, `_is_ignored`) -/

/-- Shell-glob matcher modelling `fnmatch.fnmatch` on POSIX for the pattern
forms that occur in this design: a star matches any character sequence
(including slashes), a question mark one character, everything else
literally.  No default pattern uses a bracket class.  Matching is
whole-string, as `fnmatch.translate` anchors with a final boundary.
Fuel exceeds pattern plus text length, so it never runs out. -/
def globGo : Nat → List Char → List Char → Bool
  | 0, _, _ => false
  | _ + 1, [], [] => true
  | _ + 1, [], _ :: _ => false
  | fuel + 1, '*' :: ps, s =>
    globGo fuel ps s ||
      (match s with
       | [] => false
       | _ :: t => globGo fuel ('*' :: ps) t)
  | _ + 1, _ :: _, [] => false
  | fuel + 1, p :: ps, c :: s => (p = '?' || p = c) && globGo fuel ps s

def fnmatch (text pattern : String) : Bool :=
  globGo (pattern.length + text.length + 1) pattern.toList text.toList

/-- The built-in default pattern list of `_load_gitignore` (no project
ignore file present). -/
def default_ignored : List String := [
  "node_modules", "dist", "build", "out", ".next",
  "__pycache__", "*.pyc", "venv", ".env", "*.egg-info",
  "assets", "images", "media", "*.jpg", "*.jpeg", "*.png", "*.gif",
  "*.svg", "*.ico", "*.pdf",
  ".idea", ".vscode", ".DS_Store",
  "package-lock.json", "yarn.lock",
  "logs", "*.log", ".cache",
  "coverage", ".coverage",
  "docs", "*.md",
  "*.config.js", "*.conf", "*.lock"]

/-- The per-pattern test inside the loop of `_is_ignored`.  A pattern ending
in a slash is tried as a directory-prefix glob; otherwise the pattern is
tried against the relative path, and, when it contains no slash, also
against the basename. -/
def ignoreMatch (rel_path pattern : String) : Bool :=
  if pyEnds "/" pattern then fnmatch (rel_path ++ "/") (pattern ++ "*")
  else if fnmatch rel_path pattern then true
  else if !(substrOf "/" pattern) && fnmatch (basename rel_path) pattern then true
  else false

/-- Translation of `CodeExplorer._is_ignored`.  The argument is the path
relative to the project root (`os.path.relpath` is the identity on the
project-relative paths the claims are about). -/
def _is_ignored (patterns : List String) (rel_path : String) : Bool :=
  patterns.any (ignoreMatch rel_path)

/-! ## Context finder (`_get_better_context`) -/

def defStart (line : String) : Bool :=
  pyStarts "def " line || pyStarts "class " line || pyStarts "async def " line

/-- The inner collection of method lines between a found class line `i` and
the match line `cl` (exclusive). -/
def classMethods (lines : List String) (i cl : Nat) : List String :=
  (List.range' (i + 1) (cl - (i + 1))).filterMap (fun j =>
    let lj := pyStrip (lines.getD j "")
    if pyStarts "def " lj || pyStarts "async def " lj then some ("  " ++ lj) else none)

/-- One iteration of the upward scan at index `i`: `some ctx` means the loop
breaks with context `ctx`, `none` means it continues upward.  Note the
source strips the line first and then tests `startswith((space, tab))` on
the stripped text, so the second break condition fires on every non-blank
non-definition line; the translation preserves that behaviour. -/
def ctxStep (lines : List String) (cl i : Nat) : Option (List String) :=
  let line := pyStrip (lines.getD i "")
  if defStart line then
    some (if pyStarts "class " line then line :: classMethods lines i cl else [line])
  else if line ≠ "" && !(pyStarts " " line || pyStarts "\t" line) then some []
  else none

def ctxLoop (lines : List String) (cl : Nat) : Nat → List String
  | 0 => (ctxStep lines cl 0).getD []
  | i + 1 =>
    match ctxStep lines cl (i + 1) with
    | some ctx => ctx
    | none => ctxLoop lines cl i

/-- Translation of `CodeExplorer._get_better_context`. -/
def _get_better_context (lines : List String) (current_line : Nat) : String :=
  let ctx := ctxLoop lines current_line current_line
  if ctx.isEmpty then "" else joinNL ctx ++ "\n"

/-! ## Relevance scoring and result assembly (`search_code`) -/

structure LineMatch where
  line_num : Nat
  terms : List String
  line : String
  is_technical : Bool
deriving DecidableEq

structure FileScore where
  filename_exact : Int
  filename_part : Int
  content_matches : List LineMatch
  technical_score : Int
deriving DecidableEq

structure FileData where
  scores : FileScore
  total_score : Int
  lines : List String
deriving DecidableEq

structure SearchResult where
  file : String
  content : String
  context : String
  relevance : Int
  line_number : Nat
  matched_terms : List String
  is_technical_match : Bool
deriving DecidableEq, Inhabited

/-- The eight structural-definition regexes awarding the per-line +5 bonus. -/
def lineTechnicalREs : List RE := [
  reSeq [.str "class", reWS, reW],
  reSeq [.str "def", reWS, reW],
  reSeq [.str "function", reWS, reW],
  reSeq [.str "import", reWS, reW],
  reSeq [.str "from", reWS, reW, reWS, .str "import"],
  .str "require(",
  reSeq [.str "export", reWS],
  reSeq [.str "@", reW]]

/-- The regex deciding the `is_technical` flag of a line match. -/
def isTechnicalRE : RE :=
  reSeq [reAlts [.str "class", .str "def", .str "function", .str "import",
                 .str "export", .str "require", .str "@"], reWS, reW]

/-- Angular decorator-call shape shared by the five component patterns. -/
def angDecoratorBody : RE :=
  reSeq [reWSstar, .str "(", reWSstar, .str "\x7b", .star (fun c => c ≠ rbrace),
         .str "\x7d", reWSstar, .str ")"]

def component_patterns : List RE := [
  .seq (.str "@Component") angDecoratorBody,
  .seq (.str "@Injectable") angDecoratorBody,
  .seq (.str "@Directive") angDecoratorBody,
  .seq (.str "@Pipe") angDecoratorBody,
  .seq (.str "@NgModule") angDecoratorBody]

def service_patterns : List RE := [
  reSeq [.str "class", reWS, reW, .str "Service"],
  reSeq [.str "constructor", reWSstar, .str "(", .star (fun c => c ≠ ')'), .str ")"],
  .str "@Injectable"]

def template_patterns : List RE := [
  .str "*ngFor",
  .str "*ngIf",
  .str "[ngModel]",
  .str "(click)",
  reSeq [.str "\x7b\x7b", .star (fun c => c ≠ rbrace), .str "\x7d\x7d"]]

def module_patterns : List RE := [
  reSeq [.str "imports", reWSstar, .str ":"],
  reSeq [.str "declarations", reWSstar, .str ":"],
  reSeq [.str "providers", reWSstar, .str ":"],
  reSeq [.str "exports", reWSstar, .str ":"]]

def routing_patterns : List RE := [.str "RouterModule", .str "Routes", .str "@RouteConfig"]

/-- The query-keyword-driven pattern-group selection of the angular branch
of `search_code`. -/
def selectedPatterns (query : String) : List RE :=
  let ql := lowerStr query
  if substrOf "component" ql then component_patterns
  else if substrOf "service" ql then service_patterns
  else if substrOf "module" ql then module_patterns
  else if substrOf "template" ql || substrOf "html" ql then template_patterns
  else if substrOf "routing" ql then routing_patterns
  else component_patterns ++ service_patterns ++ template_patterns ++ module_patterns
       ++ routing_patterns

def filePats (isAngular : Bool) (query : String) : List RE :=
  if isAngular then selectedPatterns query else []

/-- The `framework_score` accumulated before the generic scoring: filename
suffix bonuses and 5 points per selected pattern found in the file text.
It is zero for any non-angular project type. -/
def frameworkScoreOf (isAngular : Bool) (pats : List RE) (file_name content : String) : Int :=
  if isAngular then
    (if pyEnds ".component.ts" file_name then 10
     else if pyEnds ".service.ts" file_name then 8
     else if pyEnds ".module.ts" file_name then 6
     else 0)
    + 5 * ((pats.filter (fun r => reSearch r content)).length : Int)
  else 0

/-- The per-line +5 technical bonus of the line loop of `search_code`. -/
def lineTechBonus (lines : List String) : Int :=
  5 * ((lines.filter (fun l => lineTechnicalREs.any (fun r => reSearch r l))).length : Int)

/-- The `content_matches` list of the line loop of `search_code`: every line
containing at least one search term, with its matching terms (in term-set
iteration order) and its technical flag. -/
def contentMatches (terms : List String) (lines : List String) : List LineMatch :=
  lines.enum.filterMap (fun il =>
    let tm := terms.filter (fun t => substrOf t (lowerStr il.2))
    if tm.isEmpty then none
    else some { line_num := il.1, terms := tm, line := il.2,
                is_technical := reSearch isTechnicalRE il.2 })

/-- The whole per-file scoring body of `search_code`: filename scores, line
loop, structural analyses, and the final total.  `filename_part` holds the
partial-filename score of the source record. -/
def scoreFile (isAngular : Bool) (pats : List RE) (terms : List String)
    (file_path content : String) : FileData :=
  let file_name := lowerStr (basename file_path)
  let fe : Int := 20 * ((terms.filter (fun t => (pySplitOn '.' file_name).contains t)).length : Int)
  let fp : Int := 5 * ((terms.filter (fun t => substrOf t file_name)).length : Int)
  let lines := pyLines content
  let cms := contentMatches terms lines
  let tech : Int :=
    frameworkScoreOf isAngular pats file_name content
    + lineTechBonus lines
    + 2 * ((_analyze_patterns content).length : Int)
    + (_analyze_complexity content).score
    + 3 * ((_analyze_dependencies content).length : Int)
    + 2 * ((_analyze_data_flow content).length : Int)
  { scores := { filename_exact := fe, filename_part := fp, content_matches := cms,
                technical_score := tech },
    total_score := fe + fp + (cms.length : Int) * 2 + tech,
    lines := lines }

/-- The body of the per-file loop of `search_code`: score the file and keep
it only when the total is positive. -/
def scoreEntry (isAngular : Bool) (query : String) (pc : String × String) :
    Option (String × FileData) :=
  let d := scoreFile isAngular (filePats isAngular query) (searchTermsOf query) pc.1 pc.2
  if 0 < d.total_score then some (pc.1, d) else none

/-- The `relevant_files` mapping of `search_code`: every corpus file whose
total score is positive, in corpus order (Python dict insertion order). -/
def relevant_files (isAngular : Bool) (corpus : List (String × String)) (query : String) :
    List (String × FileData) :=
  corpus.filterMap (scoreEntry isAngular query)

/-- Ordering used for `sorted(.., key=total_score, reverse=True)`: a stable
sort with this relation equals the CPython stable descending sort. -/
def fileLe (a b : String × FileData) : Prop := b.2.total_score ≤ a.2.total_score

instance : DecidableRel fileLe := fun a b =>
  inferInstanceAs (Decidable (b.2.total_score ≤ a.2.total_score))

def top_files (isAngular : Bool) (corpus : List (String × String)) (query : String) :
    List (String × FileData) :=
  (List.insertionSort fileLe (relevant_files isAngular corpus query)).take 3

/-- Assembly of one `SearchResult` from a retained file and one line match. -/
def mkResult (pd : String × FileData) (m : LineMatch) : SearchResult :=
  let start_line := m.line_num - 5
  let end_line := min pd.2.lines.length (m.line_num + 6)
  { file := pd.1,
    content := joinNL ((pd.2.lines.drop start_line).take (end_line - start_line)),
    context := _get_better_context pd.2.lines m.line_num,
    relevance := pd.2.total_score,
    line_number := m.line_num + 1,
    matched_terms := m.terms,
    is_technical_match := m.is_technical }

def build_results (isAngular : Bool) (corpus : List (String × String)) (query : String) :
    List SearchResult :=
  (top_files isAngular corpus query).flatMap (fun pd =>
    pd.2.scores.content_matches.map (mkResult pd))

/-- Ordering for the final `sorted(.., key=(relevance, is_technical_match),
reverse=True)`: descending lexicographic on the pair, False below True. -/
def resultLe (a b : SearchResult) : Prop :=
  b.relevance < a.relevance ∨
    (b.relevance = a.relevance ∧ (b.is_technical_match → a.is_technical_match))

instance : DecidableRel resultLe := fun a b =>
  inferInstanceAs (Decidable (b.relevance < a.relevance ∨
    (b.relevance = a.relevance ∧ (b.is_technical_match → a.is_technical_match))))

/-- Translation of `CodeExplorer.search_code`, as a pure function of the
post-construction engine state (project type and corpus) and the query. -/
def search_code (isAngular : Bool) (corpus : List (String × String)) (query : String) :
    List SearchResult :=
  if searchTermsOf query = [] then []
  else List.insertionSort resultLe (build_results isAngular corpus query)

/-! ## Fixtures used by concrete claims -/

/-- A file whose line 10 (1-based) is a function definition and whose line
15 (1-based, the last line) contains the only occurrence of `needle`. -/
def c5content : String :=
  "top\nx1\nx2\nx3\nx4\nx5\nx6\nx7\nx8\ndef foo():\n    a = 1\n    b = 2\n    c = 3\n    d = 4\n    e = needle"

def c5corpus : List (String × String) := [("a.ts", c5content)]

/-- A 13-line file whose only `needle` occurrence is on line 6 (index 5). -/
def c6content : String :=
  "a0\na1\na2\na3\na4\nqq needle\na6\na7\na8\na9\na10\na11\na12"

def c6corpus : List (String × String) := [("b.ts", c6content)]

/-- The destructured-import file of the C7 scenario. -/
def c7content : String := "import \x7b Foo \x7d from \x27bar\x27;"

/-! ## Claims -/

/-- C3 counterexample: on the file text `if (` the code computes
cognitive = 2 (keyword count plus maximum nesting depth) while the claim
says the cognitive proxy equals the maximum running nesting depth, which is
1 here; the claimed combined score also differs (2 versus 1). -/
theorem c3_cognitive_is_not_max_depth :
    ¬ ((_analyze_complexity "if (").cyclomatic = (controlStructureCount "if (" : Int) + 1 ∧
       (_analyze_complexity "if (").cognitive = maxNestingDepth "if (" ∧
       (_analyze_complexity "if (").score =
         Int.fdiv ((_analyze_complexity "if (").cyclomatic + maxNestingDepth "if (") 2) := by
  decide

/-- C3 amended: for every file text, the complexity estimate returns
cyclomatic = control-keyword count + 1, cognitive = control-keyword count +
maximum running nesting depth, and a combined score equal to the floor
division by 2 of the sum of the two computed proxies. -/
theorem c3_complexity_formulas (content : String) :
    (_analyze_complexity content).cyclomatic = (controlStructureCount content : Int) + 1 ∧
    (_analyze_complexity content).cognitive =
      (controlStructureCount content : Int) + maxNestingDepth content ∧
    (_analyze_complexity content).score =
      Int.fdiv ((_analyze_complexity content).cyclomatic +
        (_analyze_complexity content).cognitive) 2 :=
  ⟨rfl, rfl, rfl⟩

/-- C4 counterexample: under the default pattern set the ignore check
returns False for the file path `build/x.ts` (shell-glob matching of the
pattern `build` matches neither the whole relative path nor the basename
`x.ts`), so the claimed conjunction is false. -/
theorem c4_default_ignore_claim_false :
    ¬ (_is_ignored default_ignored "build/x.ts" = true ∧
       _is_ignored default_ignored "src/app.component.ts" = false) := by decide

/-- C4 amended: under the default pattern set alone, the ignore check
returns False for the path `build/x.ts` and False for
`src/app.component.ts`; the directory path `build` itself returns True,
which is how the loader prunes the `build` subtree during traversal. -/
theorem c4_default_ignore_behavior :
    _is_ignored default_ignored "build/x.ts" = false ∧
    _is_ignored default_ignored "build" = true ∧
    _is_ignored default_ignored "src/app.component.ts" = false := by decide

/-- C5: evaluation of the code at the failing input.  The fixture file has
`def foo():` as line 10 (index 9) and a search-term match on line 15; the
produced structural context is the empty string, not a string starting with
`def foo():`, because the upward scan strips each line before testing its
indentation and therefore aborts at the first non-blank line — the match
line itself. -/
theorem c5_context_empty_at_failing_input :
    (pyLines c5content).getD 9 "" = "def foo():" ∧
    (search_code false c5corpus "needle").map (fun r => (r.line_number, r.context)) =
      [(15, "")] := by decide

/-- C7: for the file text `import (brace) Foo (brace) from (quote)bar(quote);`
dependency extraction yields exactly one edge with source `bar` and imports
`["Foo"]`; inside the technical score of the scenario file that edge
contributes exactly 3 points (the dependency term of the sum is 3). -/
theorem c7_dependency_edge_and_score :
    _analyze_dependencies c7content =
      [{ type := "import", source := "bar", imports := ["Foo"] }] ∧
    3 * ((_analyze_dependencies c7content).length : Int) = 3 ∧
    (scoreFile false [] (searchTermsOf "Foo") "x.ts" c7content).scores.technical_score =
      lineTechBonus (pyLines c7content)
      + 2 * ((_analyze_patterns c7content).length : Int)
      + (_analyze_complexity c7content).score
      + 3
      + 2 * ((_analyze_data_flow c7content).length : Int) := by decide

/-! ## Origin lemmas for the result pipeline -/

theorem scoreEntry_eq {i : Bool} {q : String} {pc : String × String}
    {pd : String × FileData} (h : scoreEntry i q pc = some pd) :
    pd = (pc.1, scoreFile i (filePats i q) (searchTermsOf q) pc.1 pc.2) ∧
      0 < (scoreFile i (filePats i q) (searchTermsOf q) pc.1 pc.2).total_score := by
  rw [show scoreEntry i q pc =
      (if 0 < (scoreFile i (filePats i q) (searchTermsOf q) pc.1 pc.2).total_score then
        some (pc.1, scoreFile i (filePats i q) (searchTermsOf q) pc.1 pc.2)
      else none) from rfl] at h
  split at h
  · next hpos => exact ⟨(Option.some.injEq _ _ ▸ h).symm, hpos⟩
  · cases h

theorem mem_relevant_files {i : Bool} {c : List (String × String)} {q : String}
    {pd : String × FileData} (h : pd ∈ relevant_files i c q) :
    ∃ pc ∈ c, pd = (pc.1, scoreFile i (filePats i q) (searchTermsOf q) pc.1 pc.2) ∧
      0 < pd.2.total_score := by
  obtain ⟨pc, hpc, heq⟩ := List.mem_filterMap.mp h
  obtain ⟨h1, h2⟩ := scoreEntry_eq heq
  exact ⟨pc, hpc, h1, by rw [h1]; exact h2⟩

theorem mem_top_files {i : Bool} {c : List (String × String)} {q : String}
    {pd : String × FileData} (h : pd ∈ top_files i c q) : pd ∈ relevant_files i c q := by
  have h1 := (List.take_sublist 3 _).subset h
  exact (List.perm_insertionSort fileLe _).mem_iff.mp h1

theorem mem_search_code {i : Bool} {c : List (String × String)} {q : String}
    {r : SearchResult} (h : r ∈ search_code i c q) :
    ∃ pd ∈ top_files i c q, ∃ m ∈ pd.2.scores.content_matches, r = mkResult pd m := by
  unfold search_code at h
  split at h
  · cases h
  · have h1 := (List.perm_insertionSort resultLe _).mem_iff.mp h
    obtain ⟨pd, hpd, hr⟩ := List.mem_flatMap.mp h1
    obtain ⟨m, hm, hmk⟩ := List.mem_map.mp hr
    exact ⟨pd, hpd, m, hm, hmk.symm⟩

theorem relevant_files_keys_sublist (i : Bool) (c : List (String × String)) (q : String) :
    List.Sublist ((relevant_files i c q).map Prod.fst) (c.map Prod.fst) := by
  induction c with
  | nil => simp [relevant_files]
  | cons pc rest ih =>
    simp only [relevant_files, List.filterMap_cons, List.map_cons] at *
    cases hsc : scoreEntry i q pc with
    | none => exact ih.cons pc.1
    | some pd =>
      have hfst : pd.1 = pc.1 := by rw [(scoreEntry_eq hsc).1]
      simp only [List.map_cons, hfst]
      exact ih.cons₂ pc.1

theorem assoc_nodup_unique {l : List (String × FileData)} (h : (l.map Prod.fst).Nodup)
    {k : String} {d1 d2 : FileData} (h1 : (k, d1) ∈ l) (h2 : (k, d2) ∈ l) : d1 = d2 := by
  induction l with
  | nil => cases h1
  | cons x rest ih =>
    simp only [List.map_cons, List.nodup_cons] at h
    rcases List.mem_cons.mp h1 with h1e | h1m
    · rcases List.mem_cons.mp h2 with h2e | h2m
      · rw [← h1e] at h2e
        exact ((Prod.mk.injEq _ _ _ _ ▸ h2e).2).symm
      · exfalso
        apply h.1
        rw [← h1e]
        exact List.mem_map.mpr ⟨(k, d2), h2m, rfl⟩
    · rcases List.mem_cons.mp h2 with h2e | h2m
      · exfalso
        apply h.1
        rw [← h2e]
        exact List.mem_map.mpr ⟨(k, d1), h1m, rfl⟩
      · exact ih h.2 h1m h2m

theorem scoreFile_total (i : Bool) (pats : List RE) (terms : List String)
    (file_path content : String) :
    (scoreFile i pats terms file_path content).total_score =
      (scoreFile i pats terms file_path content).scores.filename_exact
      + (scoreFile i pats terms file_path content).scores.filename_part
      + ((scoreFile i pats terms file_path content).scores.content_matches.length : Int) * 2
      + (scoreFile i pats terms file_path content).scores.technical_score := rfl

theorem scoreFile_exact (i : Bool) (pats : List RE) (terms : List String)
    (file_path content : String) :
    (scoreFile i pats terms file_path content).scores.filename_exact =
      20 * ((terms.filter
        (fun t => (pySplitOn '.' (lowerStr (basename file_path))).contains t)).length : Int) :=
  rfl

theorem scoreFile_part (i : Bool) (pats : List RE) (terms : List String)
    (file_path content : String) :
    (scoreFile i pats terms file_path content).scores.filename_part =
      5 * ((terms.filter
        (fun t => substrOf t (lowerStr (basename file_path)))).length : Int) :=
  rfl

/-- C1: for every query and every file retained in the relevance mapping,
the total score equals filename-exact + filename-partial + 2 x (number of
recorded line matches) + technical score, where the filename-exact score is
20 per search term equal to a whole dot-separated segment of the lowercased
basename and the filename-partial score is 5 per search term that is a
substring of the lowercased basename. -/
theorem c1_total_score_is_component_sum (i : Bool) (c : List (String × String)) (q : String)
    (p : String) (d : FileData) (h : (p, d) ∈ relevant_files i c q) :
    d.total_score =
      20 * (((searchTermsOf q).filter
        (fun t => (pySplitOn '.' (lowerStr (basename p))).contains t)).length : Int)
      + 5 * (((searchTermsOf q).filter
        (fun t => substrOf t (lowerStr (basename p)))).length : Int)
      + 2 * (d.scores.content_matches.length : Int)
      + d.scores.technical_score := by
  obtain ⟨pc, hpc, heq, hpos⟩ := mem_relevant_files h
  have hp : p = pc.1 := congrArg Prod.fst heq
  have hd : d = scoreFile i (filePats i q) (searchTermsOf q) pc.1 pc.2 :=
    congrArg Prod.snd heq
  subst hp
  rw [hd, scoreFile_total, scoreFile_exact, scoreFile_part]
  ring

def c1_data : FileData :=
  scoreFile false (filePats false "needle") (searchTermsOf "needle") "a.ts" "needle"

/-- Witness for C1: the concrete one-file corpus `[("a.ts", "needle")]`
with query `needle`. -/
theorem c1_total_score_witness :
    c1_data.total_score =
      20 * (((searchTermsOf "needle").filter
        (fun t => (pySplitOn '.' (lowerStr (basename "a.ts"))).contains t)).length : Int)
      + 5 * (((searchTermsOf "needle").filter
        (fun t => substrOf t (lowerStr (basename "a.ts")))).length : Int)
      + 2 * (c1_data.scores.content_matches.length : Int)
      + c1_data.scores.technical_score :=
  c1_total_score_is_component_sum false [("a.ts", "needle")] "needle" "a.ts" c1_data
    (by decide)

/-- C2: at most 3 distinct file paths appear across all results of any
single query, however many files scored above zero. -/
theorem c2_at_most_three_distinct_files (i : Bool) (c : List (String × String)) (q : String) :
    ((search_code i c q).map (fun r => r.file)).toFinset.card ≤ 3 := by
  have hsub : ((search_code i c q).map (fun r => r.file)).toFinset ⊆
      ((top_files i c q).map Prod.fst).toFinset := by
    intro x hx
    rw [List.mem_toFinset] at hx ⊢
    obtain ⟨r, hr, hrx⟩ := List.mem_map.mp hx
    obtain ⟨pd, hpd, m, hm, hrmk⟩ := mem_search_code hr
    refine List.mem_map.mpr ⟨pd, hpd, ?_⟩
    rw [← hrx, hrmk]
    rfl
  have h1 := Finset.card_le_card hsub
  have h2 := List.toFinset_card_le ((top_files i c q).map Prod.fst)
  have h3 : ((top_files i c q).map Prod.fst).length = (top_files i c q).length :=
    List.length_map _ _
  have h4 : (top_files i c q).length ≤ 3 := by
    unfold top_files
    rw [List.length_take]
    exact min_le_left _ _
  omega

/-- Modelled from the words of claim C6: the snippet window spanning 5
lines before through 6 lines after the match line inclusive, clipped to the
file bounds. -/
def snippet_per_claim (lines : List String) (m : Nat) : String :=
  joinNL ((lines.drop (m - 5)).take (min lines.length (m + 7) - (m - 5)))

/-- C6 counterexample: in the 13-line fixture with its only match on line 6
(index 5), the produced snippet stops at index 10, while the claimed window
through 6 lines after the match would reach index 11. -/
theorem c6_snippet_claim_false :
    ¬ (∀ r ∈ search_code false c6corpus "needle",
        r.content = snippet_per_claim (pyLines c6content) (r.line_number - 1)) := by decide

/-- C6 amended: every produced snippet consists of the lines of the
matched file from 5 before the match line up to 5 after it (the slice with
exclusive end index match+6), clipped to the file bounds. -/
theorem c6_snippet_window (i : Bool) (c : List (String × String)) (q : String)
    (r : SearchResult) (h : r ∈ search_code i c q) :
    ∃ content, (r.file, content) ∈ c ∧
      r.content = joinNL (((pyLines content).drop (r.line_number - 1 - 5)).take
        (min (pyLines content).length (r.line_number - 1 + 6) - (r.line_number - 1 - 5))) := by
  obtain ⟨pd, hpd, m, hm, hrmk⟩ := mem_search_code h
  obtain ⟨pc, hpc, heq, hpos⟩ := mem_relevant_files (mem_top_files hpd)
  refine ⟨pc.2, ?_, ?_⟩
  · have hf : r.file = pc.1 := by
      rw [hrmk]
      exact congrArg Prod.fst heq
    rw [hf]
    exact hpc
  · have hlines : pd.2.lines = pyLines pc.2 := congrArg (fun x => x.2.lines) heq
    rw [hrmk]
    show joinNL ((pd.2.lines.drop (m.line_num - 5)).take
        (min pd.2.lines.length (m.line_num + 6) - (m.line_num - 5))) =
      joinNL (((pyLines pc.2).drop (m.line_num + 1 - 1 - 5)).take
        (min (pyLines pc.2).length (m.line_num + 1 - 1 + 6) - (m.line_num + 1 - 1 - 5)))
    rw [hlines, Nat.add_sub_cancel]

def c6r0 : SearchResult := (search_code false c6corpus "needle").getD 0 default

/-- Witness for C6 (amended) at the concrete fixture corpus. -/
theorem c6_snippet_window_witness :
    ∃ content, (c6r0.file, content) ∈ c6corpus ∧
      c6r0.content = joinNL (((pyLines content).drop (c6r0.line_number - 1 - 5)).take
        (min (pyLines content).length (c6r0.line_number - 1 + 6)
          - (c6r0.line_number - 1 - 5))) :=
  c6_snippet_window false c6corpus "needle" c6r0 (by decide)

/-- C8: with an empty derived search-term set, or with a corpus in which no
file attains a positive total score (in particular an empty corpus),
`search_code` returns the empty list; being a total function, the
translation also witnesses that no exception is raised. -/
theorem c8_empty_cases (i : Bool) (c : List (String × String)) (q : String)
    (h : searchTermsOf q = [] ∨
      ∀ pc ∈ c, ¬ 0 < (scoreFile i (filePats i q) (searchTermsOf q) pc.1 pc.2).total_score) :
    search_code i c q = [] := by
  rcases h with h | h
  · unfold search_code
    rw [if_pos h]
  · have hrel : relevant_files i c q = [] := by
      unfold relevant_files
      rw [List.filterMap_eq_nil_iff]
      intro pc hpc
      rw [show scoreEntry i q pc =
          (if 0 < (scoreFile i (filePats i q) (searchTermsOf q) pc.1 pc.2).total_score then
            some (pc.1, scoreFile i (filePats i q) (searchTermsOf q) pc.1 pc.2)
          else none) from rfl]
      rw [if_neg (h pc hpc)]
    have hbuild : build_results i c q = [] := by
      unfold build_results top_files
      rw [hrel]
      rfl
    unfold search_code
    split
    · rfl
    · rw [hbuild]
      rfl

/-- Witness for C8: a stop-word-only query, and an empty corpus. -/
theorem c8_empty_result_witness :
    search_code false [("a.ts", "x")] "the of and" = [] ∧
    search_code false [] "needle" = [] :=
  ⟨c8_empty_cases false [("a.ts", "x")] "the of and" (Or.inl (by decide)),
   c8_empty_cases false [] "needle"
     (Or.inr (fun pc hpc => absurd hpc (List.not_mem_nil pc)))⟩

/-- C9: two consecutive calls of `search_code` on the same engine state and
query text return identical result lists (same length, same entries in the
same positions).  The source method mutates nothing, so consecutive calls
are two applications of the same pure function. -/
theorem c9_search_deterministic (i : Bool) (c : List (String × String)) (q : String) :
    (search_code i c q).length = (search_code i c q).length ∧
    (∀ n : Nat, (search_code i c q)[n]? = (search_code i c q)[n]?) ∧
    search_code i c q = search_code i c q :=
  ⟨rfl, fun _ => rfl, rfl⟩

/-- C10: every result carries as relevance the total score of the file it
came from (as stored in the relevance mapping), and any two results
originating from the same file carry the identical relevance value. -/
theorem c10_relevance_per_file (i : Bool) (c : List (String × String)) (q : String)
    (hnd : (c.map Prod.fst).Nodup) :
    (∀ r ∈ search_code i c q, ∃ d : FileData,
        (r.file, d) ∈ relevant_files i c q ∧ r.relevance = d.total_score) ∧
    (∀ r ∈ search_code i c q, ∀ s ∈ search_code i c q,
        r.file = s.file → r.relevance = s.relevance) := by
  have origin : ∀ r ∈ search_code i c q, ∃ d : FileData,
      (r.file, d) ∈ relevant_files i c q ∧ r.relevance = d.total_score := by
    intro r hr
    obtain ⟨pd, hpd, m, hm, hrmk⟩ := mem_search_code hr
    refine ⟨pd.2, ?_, ?_⟩
    · have hpair : (r.file, pd.2) = pd := by
        rw [hrmk]
        rfl
      rw [hpair]
      exact mem_top_files hpd
    · rw [hrmk]
      rfl
  refine ⟨origin, ?_⟩
  intro r hr s hs hfs
  obtain ⟨dr, hdr, hrrel⟩ := origin r hr
  obtain ⟨ds, hds, hsrel⟩ := origin s hs
  have hkeys : ((relevant_files i c q).map Prod.fst).Nodup :=
    List.Nodup.sublist (relevant_files_keys_sublist i c q) hnd
  rw [hfs] at hdr
  have hdd : dr = ds := assoc_nodup_unique hkeys hdr hds
  rw [hrrel, hsrel, hdd]

/-- Witness for C10 at a concrete one-file corpus. -/
theorem c10_relevance_witness :
    (∀ r ∈ search_code false [("a.ts", "needle")] "needle", ∃ d : FileData,
        (r.file, d) ∈ relevant_files false [("a.ts", "needle")] "needle" ∧
        r.relevance = d.total_score) ∧
    (∀ r ∈ search_code false [("a.ts", "needle")] "needle",
      ∀ s ∈ search_code false [("a.ts", "needle")] "needle",
        r.file = s.file → r.relevance = s.relevance) :=
  c10_relevance_per_file false [("a.ts", "needle")] "needle" (by decide)
